import Mathlib

/-!
Shallow embedding of the ECS runtime (src/src/ECS.h, src/src/ECS.cpp).

Machine integers are modelled as `Nat` with the source's sentinel maxima as
explicit constants (`unsigned int` maximum for component ids/indices/unique
ids, `unsigned long` maximum for entity ids, LP64).  `std::bitset`
signatures and `std::set<C_INDEX>` index sets are modelled as strictly
sorted `List Nat` (ascending iteration order, no duplicates), and
`std::unordered_map` as association lists in insertion order.  Concrete
C++ component/system types are identified by their `std::type_index`,
modelled as a `String` token.  Null component-store slots are
`Option Component` with `none` for `nullptr`.
-/

namespace ECS

/-- `std::numeric_limits<unsigned int>::max()`: `MAX_C_ID`/`INVALID_C_ID`. -/
def INVALID_C_ID : Nat := 4294967295

/-- `MAX_C_INDEX`/`INVALID_C_INDEX` (same sentinel value). -/
def INVALID_C_INDEX : Nat := 4294967295

/-- `MAX_C_UNIQUE_ID`/`INVALID_C_UNIQUE_ID` (same sentinel value). -/
def INVALID_C_UNIQUE_ID : Nat := 4294967295

/-- `std::numeric_limits<unsigned long>::max()`: `MAX_E_ID`/`INVALID_E_ID`. -/
def INVALID_E_ID : Nat := 18446744073709551615

/-- `MAX_E_ID` equals the invalid sentinel in the source. -/
def MAX_E_ID : Nat := INVALID_E_ID

/-- `DEFAULT_ENTITY_POOL_NAME`. -/
def DEFAULT_ENTITY_POOL_NAME : String := "DEFAULT"

/-- `DEFAULT_ENTITY_POOL_SIZE`. -/
def DEFAULT_ENTITY_POOL_SIZE : Nat := 2048

/-- `MAX_COMPONENT_TYPE_PER_ENTITY` (the `std::bitset` signature width). -/
def MAX_COMPONENT_TYPE_PER_ENTITY : Nat := 256

/-- `ECS::ERROR_CODE`. -/
inductive ERROR_CODE where
  | ECS_NO_ERROR
  | ECS_INVALID_POOL_NAME
  | ECS_DUPLICATED_POOL_NAME
  | ECS_POOL_NOT_FOUND
  | ECS_POOL_IS_FULL
  | ECS_INVALID_ENTITY_ID
  | ECS_ENTITY_NOT_FOUND
deriving DecidableEq

/-- Ordered no-duplicate insertion, modelling `std::set::insert` /
setting a signature bit. -/
def sinsert (v : Nat) : List Nat → List Nat
  | [] => [v]
  | h :: t => if v < h then v :: h :: t else if v = h then h :: t else h :: sinsert v t

/-- Element removal, modelling `std::set::erase` / clearing a signature bit. -/
def serase (v : Nat) (l : List Nat) : List Nat := l.filter (fun x => x ≠ v)

/-- Association-list lookup (`std::unordered_map::find`). -/
def alFind {κ β : Type} [DecidableEq κ] (k : κ) : List (κ × β) → Option β
  | [] => none
  | (a, b) :: t => if a = k then some b else alFind k t

/-- Update the value stored under a present key in place. -/
def alUpdate {κ β : Type} [DecidableEq κ] (k : κ) (f : β → β) : List (κ × β) → List (κ × β)
  | [] => []
  | (a, b) :: t => if a = k then (a, f b) :: t else (a, b) :: alUpdate k f t

/-- `std::unordered_map::insert`: no effect when the key is present. -/
def alInsert {κ β : Type} [DecidableEq κ] (k : κ) (v : β) (l : List (κ × β)) : List (κ × β) :=
  match alFind k l with
  | some _ => l
  | none => l ++ [(k, v)]

/-- `std::unordered_map::erase` by key. -/
def alEraseKey {κ β : Type} [DecidableEq κ] (k : κ) (l : List (κ × β)) : List (κ × β) :=
  l.filter (fun p => p.1 ≠ k)

/-- Apply `f` to the list element at position `i` (no effect out of range). -/
def listModify {α : Type} (i : Nat) (f : α → α) (l : List α) : List α :=
  match l.get? i with
  | some a => l.set i (f a)
  | none => l

/-- Base `Component` record: the four fields maintained by the `Manager`
(`id`, `index`, `uniqueId`, `ownerId`).  User payload fields do not
affect any claim and are omitted. -/
structure Component where
  id : Nat
  index : Nat
  uniqueId : Nat
  ownerId : Nat
deriving DecidableEq

/-- `ECS::Component::Component()`: all fields start at their sentinels. -/
def Component.init : Component :=
  { id := INVALID_C_ID, index := INVALID_C_INDEX,
    uniqueId := INVALID_C_UNIQUE_ID, ownerId := INVALID_E_ID }

instance : Inhabited Component := ⟨Component.init⟩

/-- `ECS::Entity`.  `signature` is the sorted list of set bit positions of
the `std::bitset`; `componentIndicies` is the `unordered_map` from
component unique id to the `std::set` of store indices. -/
structure Entity where
  signature : List Nat
  componentIndicies : List (Nat × List Nat)
  id : Nat
  index : Nat
  entityPoolName : String
  alive : Bool
  sleep : Bool
deriving DecidableEq

/-- `ECS::Entity::Entity()`; `index(-1)` wraps to the unsigned maximum. -/
def Entity.init : Entity :=
  { signature := [], componentIndicies := [], id := INVALID_E_ID,
    index := 4294967295, entityPoolName := "", alive := false, sleep := false }

instance : Inhabited Entity := ⟨Entity.init⟩

/-- `ECS::Entity::getComponentIndiicesByUniqueId`: copy of the index set
under a unique id; an absent key throws and is caught, yielding ∅. -/
def Entity.indicesOf (e : Entity) (u : Nat) : List Nat :=
  (alFind u e.componentIndicies).getD []

/-- Insert a store index into the per-type index set (`operator[]`
followed by `std::set::insert`, creating the key when absent). -/
def ciInsert (u : Nat) (v : Nat) (l : List (Nat × List Nat)) : List (Nat × List Nat) :=
  match alFind u l with
  | some _ => alUpdate u (fun s => sinsert v s) l
  | none => l ++ [(u, [v])]

/-- Erase a store index from the per-type index set under a present key. -/
def ciEraseVal (u : Nat) (v : Nat) (l : List (Nat × List Nat)) : List (Nat × List Nat) :=
  alUpdate u (fun s => serase v s) l

/-- `ECS::Pool::isPowerOfTwo`. -/
def isPowerOfTwo (n : Nat) : Bool := n ≠ 0 && (n &&& (n - 1)) == 0

/-- Ceiling base-2 logarithm by the recurrence
`⌈log₂ n⌉ = 1 + ⌈log₂ ⌈n/2⌉⌉` for `n ≥ 2`, with enough fuel (structural
so that it reduces in the kernel). -/
def clog2Fuel : Nat → Nat → Nat
  | 0, _ => 0
  | fuel + 1, n => if n ≤ 1 then 0 else clog2Fuel fuel ((n + 1) / 2) + 1

/-- Ceiling base-2 logarithm. -/
def clog2 (n : Nat) : Nat := clog2Fuel n n

/-- `ECS::Pool::roundToNearestPowerOfTwo`:
`n = pow(2, ceil(log(n)/log(2)))`.  For `n = 0` the double computation is
`pow(2, -inf) = +0`, truncating to `0`; for `n ≥ 1` it is exactly
`2 ^ ⌈log₂ n⌉` in the ranges the program uses. -/
def roundToNearestPowerOfTwo (n : Nat) : Nat :=
  if n = 0 then 0 else 2 ^ clog2 n

/-- `ECS::Pool::Pool(name, size)`: the stored `poolSize`. -/
def poolCtorSize (size : Nat) : Nat :=
  if isPowerOfTwo size then size else roundToNearestPowerOfTwo size

/-- `ECS::EntityPool` (name field lives in the association key as well;
`nextIndicies` is the `std::deque` with its head at the front). -/
structure EntityPool where
  name : String
  poolSize : Nat
  nextIndicies : List Nat
  pool : List Entity
deriving DecidableEq

/-- `ECS::EntityPool::EntityPool(name, size)`: round the size, fill the
slot vector, seed the free queue in ascending order, stamp each slot
with its fixed index and the pool name. -/
def EntityPool.create (name : String) (size : Nat) : EntityPool :=
  let n := poolCtorSize size
  { name := name, poolSize := n,
    nextIndicies := List.range n,
    pool := (List.range n).map (fun i =>
      { Entity.init with index := i, entityPoolName := name }) }

instance : Inhabited EntityPool := ⟨EntityPool.create "" 0⟩

/-- `ECS::ComponentPool`: slot vector of nullable components plus the
free-index queue.  (Its `Pool` name and `poolSize` fields are never
consulted by the operations under study.) -/
structure ComponentPool where
  nextIndicies : List Nat
  pool : List (Option Component)
deriving DecidableEq

instance : Inhabited ComponentPool := ⟨⟨[], []⟩⟩

/-- `ECS::Manager` together with the two static counters
(`Component::uniqueIdCounter`, `Entity::idCounter`) it drives, and the
presence flag of the user error callback. -/
structure Manager where
  entityPools : List (String × EntityPool)
  typeIdMap : List (String × Nat)
  components : List ComponentPool
  componentIdCounter : List Nat
  uniqueIdCounter : Nat
  entityIdCounter : Nat
  hasErrorCallback : Bool
deriving DecidableEq

/-- `ECS::Manager::Manager()` at program start: the DEFAULT pool installed,
both static counters at 0, no callback. -/
def Manager.init : Manager :=
  { entityPools := [(DEFAULT_ENTITY_POOL_NAME,
      EntityPool.create DEFAULT_ENTITY_POOL_NAME DEFAULT_ENTITY_POOL_SIZE)],
    typeIdMap := [], components := [], componentIdCounter := [],
    uniqueIdCounter := 0, entityIdCounter := 0, hasErrorCallback := false }

/-- The entity living at slot `i` of the pool named `p` (the `Entity*`
the C++ API hands out). -/
def Manager.entityAt (m : Manager) (p : String) (i : Nat) : Entity :=
  ((alFind p m.entityPools).getD default).pool.getD i default

/-- Rewrite the entity at slot `i` of pool `p` in place. -/
def Manager.setEntity (m : Manager) (p : String) (i : Nat) (f : Entity → Entity) : Manager :=
  { m with entityPools := (alUpdate p
      (fun pl => { pl with pool := listModify i f pl.pool }) m.entityPools) }

/-- `ECS::Manager::hasPoolName`. -/
def Manager.hasPoolName (m : Manager) (name : String) : Bool :=
  (alFind name m.entityPools).isSome

/-- `ECS::Manager::sendError`: with a callback installed, only the three
pool-name error kinds build a message and invoke the callback; every
other kind falls into the `default: return` branch.  The result is the
`(errorCode, message)` invocation, when one happens.  (Message text
abridged from the source; no claim depends on its exact characters.) -/
def Manager.sendError (hasCallback : Bool) (errorCode : ERROR_CODE) :
    Option (ERROR_CODE × String) :=
  if hasCallback then
    match errorCode with
    | ERROR_CODE.ECS_INVALID_POOL_NAME =>
        some (errorCode, "ECS_ERROR: EntityPool name must not be empty or DEFAULT.")
    | ERROR_CODE.ECS_DUPLICATED_POOL_NAME =>
        some (errorCode, "ECS_ERROR: There is a pool already with the same name.")
    | ERROR_CODE.ECS_POOL_NOT_FOUND =>
        some (errorCode, "ECS_ERROR: Failed to find pool.")
    | _ => none
  else none

/-- `ECS::Manager::createEntityPool(name, maxSize)`: returns the new
pool's contents (`none` models the `nullptr` failure returns) plus the
error code passed to `sendError`, if any. -/
def Manager.createEntityPool (m : Manager) (name : String) (maxSize : Nat) :
    Manager × Option EntityPool × Option ERROR_CODE :=
  if name = "" ∨ name = DEFAULT_ENTITY_POOL_NAME then
    (m, none, some ERROR_CODE.ECS_INVALID_POOL_NAME)
  else if m.hasPoolName name then
    (m, none, some ERROR_CODE.ECS_DUPLICATED_POOL_NAME)
  else
    let pl := EntityPool.create name maxSize
    ({ m with entityPools := alInsert name pl m.entityPools }, some pl, none)

/-- `ECS::Entity::wrapIdCounter` applied after `revive`'s post-increment. -/
def wrapEntityIdCounter (n : Nat) : Nat := if n ≥ MAX_E_ID then 0 else n

/-- Field effect of `ECS::Entity::revive` given the id drawn from the
static counter. -/
def Entity.reviveWith (e : Entity) (newId : Nat) : Entity :=
  { e with alive := true, sleep := false, id := newId }

/-- Field effect of `ECS::Entity::kill` on the entity itself: wipe
`alive`, `sleep`, `id` (`-1` wraps to the unsigned maximum) and the
index map.  The signature is not touched. -/
def Entity.wipe (e : Entity) : Entity :=
  { e with alive := false, sleep := false, id := INVALID_E_ID, componentIndicies := [] }

/-- `ECS::Manager::createEntity(poolName)`: result is the revived slot's
index in its pool (`none` for the `nullptr` failures) plus the error
code passed to `sendError`, if any.  On success the head of the pool's
free queue is popped and the slot revived
(`ECS::Entity::revive`: alive, not asleep, fresh id, wrapped counter). -/
def Manager.createEntity (m : Manager) (poolName : String) :
    Manager × Option Nat × Option ERROR_CODE :=
  if poolName = "" then
    (m, none, some ERROR_CODE.ECS_INVALID_POOL_NAME)
  else
    match alFind poolName m.entityPools with
    | none => (m, none, some ERROR_CODE.ECS_POOL_NOT_FOUND)
    | some pl =>
      match pl.nextIndicies with
      | [] => (m, none, some ERROR_CODE.ECS_POOL_IS_FULL)
      | idx :: rest =>
        let newId := m.entityIdCounter
        let m1 := { m with
          entityPools := (alUpdate poolName (fun q =>
            { q with nextIndicies := rest,
                     pool := listModify idx (fun e => e.reviveWith newId) q.pool })
            m.entityPools),
          entityIdCounter := wrapEntityIdCounter (m.entityIdCounter + 1) }
        (m1, some idx, none)

/-- `ECS::Entity::kill` on the entity at slot `i` of pool `p`: push the
entity's fixed index onto the FRONT of its pool's free queue (when the
pool name still resolves), then wipe `alive`, `sleep`, `id` and the
index map.  The signature and the component stores are not touched. -/
def Manager.kill (m : Manager) (p : String) (i : Nat) : Manager :=
  let e := m.entityAt p i
  let m1 :=
    if (alFind e.entityPoolName m.entityPools).isSome then
      { m with entityPools := (alUpdate e.entityPoolName
          (fun pl => { pl with nextIndicies := e.index :: pl.nextIndicies }) m.entityPools) }
    else m
  m1.setEntity p i Entity.wipe

/-- `ECS::EntityPool::countAliveEntity`. -/
def EntityPool.countAliveEntity (pl : EntityPool) : Nat :=
  (pl.pool.filter (fun e => e.alive)).length

/-- `ECS::Manager::getComponentUniqueId(type_info)`: map lookup, the
invalid sentinel when the type was never registered. -/
def Manager.getComponentUniqueId (m : Manager) (t : String) : Nat :=
  (alFind t m.typeIdMap).getD INVALID_C_UNIQUE_ID

/-- `ECS::Manager::registerComponent(type_info)`: hand back the known
unique id, or allocate the next one (post-increment of the static
counter, reverted when it had already reached the maximum) and append a
fresh `ComponentPool` and per-type id counter. -/
def Manager.registerComponent (m : Manager) (t : String) : Manager × Nat :=
  let u := m.getComponentUniqueId t
  if u ≠ INVALID_C_UNIQUE_ID then (m, u)
  else
    let uid := m.uniqueIdCounter
    if uid = INVALID_C_UNIQUE_ID then (m, INVALID_C_UNIQUE_ID)
    else
      ({ m with uniqueIdCounter := uid + 1,
                typeIdMap := m.typeIdMap ++ [(t, uid)],
                components := m.components ++ [⟨[], []⟩],
                componentIdCounter := m.componentIdCounter ++ [0] }, uid)

/-- `ECS::Manager::createComponent<T>()`: a fresh record with only the
unique id assigned; `none` when registration fails. -/
def Manager.createComponent (m : Manager) (t : String) : Manager × Option Component :=
  let r := m.registerComponent t
  if r.2 = INVALID_C_UNIQUE_ID then (r.1, none)
  else (r.1, some { Component.init with uniqueId := r.2 })

/-- `ECS::Manager::wrapIdCounter` applied after the per-type
post-increment in `addComponent`. -/
def wrapComponentIdCounter (n : Nat) : Nat := if n ≥ INVALID_C_UNIQUE_ID then 0 else n

/-- `ECS::Manager::addComponent(e, t, c)` for the entity at slot `i` of
pool `p`.  Rejects a null or unregistered component, and any component
whose instance id already occurs in the type's store; otherwise appends
the component at the back of the store (the free queue is not
consulted), records the new index in the entity's index set, sets the
signature bit and fills in the component's bookkeeping fields. -/
def Manager.addComponent (m : Manager) (p : String) (i : Nat) (c : Option Component) :
    Manager × Bool :=
  match c with
  | none => (m, false)
  | some c =>
    let uid := c.uniqueId
    if uid = INVALID_C_UNIQUE_ID then (m, false)
    else
      let cp := m.components.getD uid default
      if cp.pool.any (fun s => match s with
          | some comp => comp.id = c.id
          | none => false) then (m, false)
      else
        let cIndex := cp.pool.length
        let newCId := m.componentIdCounter.getD uid 0
        let comp := { c with id := newCId, index := cIndex, ownerId := (m.entityAt p i).id }
        let m1 := { m with
          components := (listModify uid
            (fun q => { q with pool := q.pool ++ [some comp] }) m.components),
          componentIdCounter := (m.componentIdCounter.set uid
            (wrapComponentIdCounter (newCId + 1))) }
        let m2 := m1.setEntity p i (fun e =>
          { e with componentIndicies := ciInsert uid cIndex e.componentIndicies,
                   signature := sinsert uid e.signature })
        (m2, true)

/-- `ECS::Manager::addComponent<T>(e)`: create a fresh component of the
type, then attach it. -/
def Manager.addComponentT (m : Manager) (p : String) (i : Nat) (t : String) :
    Manager × Bool :=
  let r := m.createComponent t
  r.1.addComponent p i r.2

/-- The search loop of `removeComponent(e, t, componentId)`.  `j` is the
slot position; `k` is the source's running `index`, which is NOT
incremented when a null slot is skipped.  Returns the first non-null
component whose instance id matches, with both counters. -/
def findByCId (cid : Nat) : List (Option Component) → Nat → Nat → Option (Component × Nat × Nat)
  | [], _, _ => none
  | none :: t, j, k => findByCId cid t (j + 1) k
  | some comp :: t, j, k =>
    if comp.id = cid then some (comp, j, k) else findByCId cid t (j + 1) (k + 1)

/-- `ECS::Manager::removeComponent(e, t, componentId)` for the entity at
slot `i` of pool `p`: locate the component by instance id, verify its
owner, null the slot, enqueue the running index `k` at the back of the
store's free queue, erase `k` from the entity's index set and clear the
signature bit when the set became empty. -/
def Manager.removeComponentById (m : Manager) (p : String) (i : Nat) (t : String)
    (cid : Nat) : Manager × Bool :=
  if cid = INVALID_C_ID then (m, false)
  else
    let uid := m.getComponentUniqueId t
    if uid = INVALID_C_UNIQUE_ID then (m, false)
    else
      let cp := m.components.getD uid default
      match findByCId cid cp.pool 0 0 with
      | none => (m, false)
      | some (comp, j, k) =>
        if comp.ownerId = (m.entityAt p i).id then
          let m1 := { m with components := (listModify uid
            (fun q => { q with pool := q.pool.set j none,
                               nextIndicies := q.nextIndicies ++ [k] }) m.components) }
          let m2 := m1.setEntity p i (fun e =>
            let ind := ciEraseVal uid k e.componentIndicies
            { e with componentIndicies := ind,
                     signature := if (alFind uid ind).getD [] = []
                                  then serase uid e.signature else e.signature })
          (m2, true)
        else (m, false)

/-- `ECS::Manager::removeComponent(e, t, c)` for the entity at slot `i`
of pool `p`: after the sentinel/ownership/signature checks, null the
slot at the component's stored index, enqueue that index at the back of
the free queue, erase it from the entity's index set and clear the
signature bit when the set became empty. -/
def Manager.removeComponentByPtr (m : Manager) (p : String) (i : Nat) (t : String)
    (c : Component) : Manager × Bool :=
  if c.id = INVALID_C_ID then (m, false)
  else if c.index = INVALID_C_INDEX then (m, false)
  else if c.uniqueId ≠ m.getComponentUniqueId t then (m, false)
  else if c.ownerId ≠ (m.entityAt p i).id then (m, false)
  else
    let uid := c.uniqueId
    if ¬ (m.entityAt p i).signature.contains uid then (m, false)
    else
      let cp := m.components.getD uid default
      match cp.pool.getD c.index none with
      | none => (m, false)
      | some _ =>
        let m1 := { m with components := (listModify uid
          (fun q => { q with pool := q.pool.set c.index none,
                             nextIndicies := q.nextIndicies ++ [c.index] }) m.components) }
        let m2 := m1.setEntity p i (fun e =>
          let ind := ciEraseVal uid c.index e.componentIndicies
          { e with componentIndicies := ind,
                   signature := if (alFind uid ind).getD [] = []
                                then serase uid e.signature else e.signature })
        (m2, true)

/-- `ECS::Manager::removeComponents(e, t)` for the entity at slot `i` of
pool `p`: reject an unknown type, a clear signature bit or an empty
index set; otherwise null every slot listed in the index set (the free
queue is NOT touched), clear the signature bit and erase the map key. -/
def Manager.removeComponents (m : Manager) (p : String) (i : Nat) (t : String) :
    Manager × Bool :=
  let uid := m.getComponentUniqueId t
  if uid = INVALID_C_UNIQUE_ID then (m, false)
  else
    let e := m.entityAt p i
    if ¬ e.signature.contains uid then (m, false)
    else
      let cIndicies := e.indicesOf uid
      if cIndicies = [] then (m, false)
      else
        let m1 := { m with components := (listModify uid
          (fun q => { q with pool := cIndicies.foldl (fun pool idx => pool.set idx none) q.pool })
          m.components) }
        let m2 := m1.setEntity p i (fun en =>
          { en with signature := serase uid en.signature,
                    componentIndicies := alEraseKey uid en.componentIndicies })
        (m2, true)

/-- `ECS::Manager::hasComponent(e, t)`: false for an unregistered type;
otherwise the signature-bit test (`bitset::test` throws beyond the
width and the handler returns false). -/
def Manager.hasComponentType (m : Manager) (p : String) (i : Nat) (t : String) : Bool :=
  let uid := m.getComponentUniqueId t
  if uid = INVALID_C_UNIQUE_ID then false
  else if uid ≥ MAX_COMPONENT_TYPE_PER_ENTITY then false
  else (m.entityAt p i).signature.contains uid

/-- `ECS::Manager::hasComponent(e, t, c)`: sentinel and type checks, then
membership of the component's store index in the entity's index set. -/
def Manager.hasComponentPtr (m : Manager) (p : String) (i : Nat) (t : String)
    (c : Component) : Bool :=
  if c.id = INVALID_C_ID then false
  else if c.index = INVALID_C_INDEX then false
  else if c.uniqueId ≠ m.getComponentUniqueId t then false
  else if ¬ m.hasComponentType p i t then false
  else ((m.entityAt p i).indicesOf (m.getComponentUniqueId t)).contains c.index

/-- `ECS::Manager::getComponent(e, t)`: the store slot at the smallest
index in the entity's index set (`*cIndicies.begin()`), `none` for an
unknown type or an empty set. -/
def Manager.getComponent (m : Manager) (p : String) (i : Nat) (t : String) :
    Option Component :=
  let uid := m.getComponentUniqueId t
  if uid = INVALID_C_UNIQUE_ID then none
  else
    match (m.entityAt p i).indicesOf uid with
    | [] => none
    | firstIndex :: _ => (m.components.getD uid default).pool.getD firstIndex none

/-- `ECS::Manager::getComponents(e, t)`: empty for an unknown type or an
empty index set; otherwise EVERY non-null slot of the type's store, in
ascending slot order (the entity's index set is only tested for
emptiness, not used as a filter). -/
def Manager.getComponents (m : Manager) (p : String) (i : Nat) (t : String) :
    List Component :=
  let uid := m.getComponentUniqueId t
  if uid = INVALID_C_UNIQUE_ID then []
  else if (m.entityAt p i).indicesOf uid = [] then []
  else ((m.components.getD uid default).pool.filterMap id)

/-- `ECS::Manager::clear()`: detach the DEFAULT pool, drop every pool,
reset the DEFAULT pool's free queue and each of its slots (id, index
map, signature, fixed index — the `alive`/`sleep` flags are NOT
touched), reinstall it, drop all component state and reset both static
counters. -/
def Manager.clear (m : Manager) : Manager :=
  let defaultPool := (alFind DEFAULT_ENTITY_POOL_NAME m.entityPools).getD default
  let n := defaultPool.pool.length
  let cleared := { defaultPool with
    nextIndicies := List.range n,
    pool := defaultPool.pool.enum.map (fun pr =>
      { pr.2 with id := INVALID_E_ID, componentIndicies := [],
                  signature := [], index := pr.1 }) }
  { m with entityPools := [(DEFAULT_ENTITY_POOL_NAME, cleared)],
           components := [], componentIdCounter := [], typeIdMap := [],
           uniqueIdCounter := 0, entityIdCounter := 0 }

/-- `m->errorCallback = ...`: install the user error callback. -/
def Manager.installCallback (m : Manager) : Manager :=
  { m with hasErrorCallback := true }

/-! ### Helper lemmas about the container embeddings -/

theorem alFind_alUpdate_self {κ β : Type} [DecidableEq κ] (k : κ) (f : β → β)
    (l : List (κ × β)) : alFind k (alUpdate k f l) = (alFind k l).map f := by
  induction l with
  | nil => simp [alFind, alUpdate]
  | cons h t ih =>
    by_cases hk : h.1 = k
    · simp [alFind, alUpdate, hk]
    · simp [alFind, alUpdate, hk, ih]

theorem alFind_alUpdate_ne {κ β : Type} [DecidableEq κ] {k q : κ} (f : β → β)
    (l : List (κ × β)) (h : q ≠ k) : alFind q (alUpdate k f l) = alFind q l := by
  have h2 : k ≠ q := fun e => h e.symm
  induction l with
  | nil => simp [alFind, alUpdate]
  | cons hd t ih =>
    by_cases hk : hd.1 = k
    · simp [alFind, alUpdate, hk, h2]
    · by_cases hq : hd.1 = q <;> simp [alFind, alUpdate, hk, hq, h, ih]

theorem alFind_append_of_none {κ β : Type} [DecidableEq κ] {k : κ}
    {l1 l2 : List (κ × β)} (h : alFind k l1 = none) :
    alFind k (l1 ++ l2) = alFind k l2 := by
  induction l1 with
  | nil => simp
  | cons hd t ih =>
    by_cases hk : hd.1 = k
    · simp [alFind, hk] at h
    · simp [alFind, hk] at h ⊢; exact ih h

theorem alFind_append_of_some {κ β : Type} [DecidableEq κ] {k : κ} {v : β}
    {l1 l2 : List (κ × β)} (h : alFind k l1 = some v) :
    alFind k (l1 ++ l2) = some v := by
  induction l1 with
  | nil => simp [alFind] at h
  | cons hd t ih =>
    by_cases hk : hd.1 = k
    · simp [alFind, hk] at h ⊢; exact h
    · simp [alFind, hk] at h ⊢; exact ih h

theorem alFind_mem {κ β : Type} [DecidableEq κ] {k : κ} {v : β} :
    ∀ {l : List (κ × β)}, alFind k l = some v → (k, v) ∈ l := by
  intro l
  induction l with
  | nil => intro h; simp [alFind] at h
  | cons hd t ih =>
    intro h
    obtain ⟨a, b⟩ := hd
    by_cases hk : a = k
    · simp [alFind, hk] at h
      simp [hk, h]
    · simp [alFind, hk] at h
      simp [ih h]

theorem listModify_length {α : Type} (i : Nat) (f : α → α) (l : List α) :
    (listModify i f l).length = l.length := by
  unfold listModify
  cases h : l.get? i <;> simp

theorem listModify_getD_self {α : Type} {i : Nat} (f : α → α) {l : List α} (d : α)
    (h : i < l.length) : (listModify i f l).getD i d = f (l.getD i d) := by
  unfold listModify
  rw [List.get?_eq_getElem?, List.getElem?_eq_getElem h]
  simp [List.getD, List.getElem?_set_eq_of_lt, h, List.getElem?_eq_getElem h]

theorem listModify_getD_ne {α : Type} {i j : Nat} (f : α → α) (l : List α) (d : α)
    (h : j ≠ i) : (listModify i f l).getD j d = l.getD j d := by
  unfold listModify
  cases hg : l.get? i <;> simp [List.getD, List.getElem?_set_ne (fun hij => h hij.symm)]

theorem listModify_oob {α : Type} {i : Nat} (f : α → α) {l : List α}
    (h : l.length ≤ i) : listModify i f l = l := by
  unfold listModify
  rw [List.get?_eq_getElem?, List.getElem?_eq_none h]

theorem listModify_getElem?_self {α : Type} (i : Nat) (f : α → α) (l : List α) :
    (listModify i f l)[i]? = (l[i]?).map f := by
  unfold listModify
  rw [List.get?_eq_getElem?]
  cases hg : l[i]? with
  | none => simp [hg]
  | some a =>
    have hlt : i < l.length := by
      by_contra hge
      rw [List.getElem?_eq_none (Nat.le_of_not_lt hge)] at hg
      cases hg
    simp [List.getElem?_set_eq_of_lt _ hlt, hg]

theorem listModify_getElem?_ne {α : Type} {i j : Nat} (f : α → α) (l : List α)
    (h : j ≠ i) : (listModify i f l)[j]? = l[j]? := by
  unfold listModify
  cases hg : l.get? i <;> simp [List.getElem?_set_ne (fun hij => h hij.symm)]

theorem getD_concat_self {α : Type} (l : List α) (x d : α) :
    (l ++ [x]).getD l.length d = x := by
  simp [List.getD, List.getElem?_concat_length]

theorem getD_append_left {α : Type} {l : List α} {i : Nat} (t : List α) (d : α)
    (h : i < l.length) : (l ++ t).getD i d = l.getD i d := by
  simp [List.getD, List.getElem?_append_left h]

theorem sinsert_ne_nil (v : Nat) (l : List Nat) : sinsert v l ≠ [] := by
  cases l with
  | nil => simp [sinsert]
  | cons h t =>
    unfold sinsert
    by_cases h1 : v < h
    · simp [h1]
    · by_cases h2 : v = h <;> simp [h1, h2]

theorem mem_sinsert_self (v : Nat) (l : List Nat) : v ∈ sinsert v l := by
  induction l with
  | nil => simp [sinsert]
  | cons h t ih =>
    unfold sinsert
    by_cases h1 : v < h
    · simp [h1]
    · by_cases h2 : v = h
      · simp [h1, h2]
      · simp only [if_neg h1, if_neg h2, List.mem_cons]
        right
        exact ih

theorem not_mem_serase_self (v : Nat) (l : List Nat) : v ∉ serase v l := by
  intro h
  have := List.mem_filter.mp h
  simp at this

theorem alFind_ciInsert_self (u v : Nat) (l : List (Nat × List Nat)) :
    alFind u (ciInsert u v l) = some (sinsert v ((alFind u l).getD [])) := by
  unfold ciInsert
  cases h : alFind u l with
  | some s => simp [alFind_alUpdate_self, h]
  | none =>
    rw [alFind_append_of_none h]
    simp [alFind, sinsert]

theorem getD_ciEraseVal (u v : Nat) (l : List (Nat × List Nat)) :
    (alFind u (ciEraseVal u v l)).getD [] = serase v ((alFind u l).getD []) := by
  unfold ciEraseVal
  rw [alFind_alUpdate_self]
  cases alFind u l <;> simp [serase]

/-- Full characterization of the search loop of `removeComponent` by
instance id: it stops at the first non-null slot whose component
carries the id, reports that slot's position in `j`, and reports in `k`
the number of NON-NULL slots strictly before the match (the loop's
`index` is not incremented when a null slot is skipped). -/
theorem findByCId_spec (cid : Nat) :
    ∀ (l : List (Option Component)) (j0 k0 : Nat) (comp : Component) (j k : Nat),
    findByCId cid l j0 k0 = some (comp, j, k) →
    j0 ≤ j ∧ j - j0 < l.length ∧ l.getD (j - j0) none = some comp ∧
      k = k0 + ((l.take (j - j0)).countP (fun s => s.isSome)) := by
  intro l
  induction l with
  | nil =>
    intro j0 k0 comp j k h
    simp [findByCId] at h
  | cons s tail ih =>
    intro j0 k0 comp j k h
    cases s with
    | none =>
      have h2 : findByCId cid tail (j0 + 1) k0 = some (comp, j, k) := h
      obtain ⟨ha, hb, hc, hd⟩ := ih (j0 + 1) k0 comp j k h2
      have hsub : j - j0 = (j - (j0 + 1)) + 1 := by omega
      refine ⟨by omega, by simp; omega, ?_, ?_⟩
      · rw [hsub]
        simpa [List.getD] using hc
      · rw [hsub, List.take_succ_cons, List.countP_cons]
        simpa using hd
    | some comp2 =>
      by_cases hid : comp2.id = cid
      · rw [show findByCId cid (some comp2 :: tail) j0 k0 = some (comp2, j0, k0) from
          by simp [findByCId, hid]] at h
        have h3 : comp2 = comp ∧ j0 = j ∧ k0 = k := by simpa using h
        obtain ⟨rfl, h4, h5⟩ := h3
        subst h4
        subst h5
        refine ⟨Nat.le_refl _, by simp, ?_, by simp⟩
        simp [List.getD]
      · rw [show findByCId cid (some comp2 :: tail) j0 k0 =
            findByCId cid tail (j0 + 1) (k0 + 1) from by simp [findByCId, hid]] at h
        obtain ⟨ha, hb, hc, hd⟩ := ih (j0 + 1) (k0 + 1) comp j k h
        have hsub : j - j0 = (j - (j0 + 1)) + 1 := by omega
        refine ⟨by omega, by simp; omega, ?_, ?_⟩
        · rw [hsub]
          simpa [List.getD] using hc
        · rw [hsub, List.take_succ_cons, List.countP_cons]
          simp only [Option.isSome_some, if_pos]
          omega

/-! ### Concrete program runs used by the refutations.

`scenarioBase` is the just-initialized manager with an extra pool `"P"`
of capacity 2; `scenarioE` has one entity created in `"P"`;
`scenarioC` additionally attaches one component of the concrete type
`"T1"` to it; `scenarioK` then kills the entity. -/

def scenarioBase : Manager := (Manager.init.createEntityPool "P" 2).1

def scenarioE : Manager := (scenarioBase.createEntity "P").1

def scenarioC : Manager := (scenarioE.addComponentT "P" 0 "T1").1

def scenarioK : Manager := scenarioC.kill "P" 0

/-- Second entity in `"P"` (slot 1, id 1) with its own `"T1"` component. -/
def scenarioTwo : Manager := ((scenarioC.createEntity "P").1.addComponentT "P" 1 "T1").1

/-- `scenarioC` after `removeComponent<T1>(e, instanceId 0)`. -/
def scenarioR : Manager := (scenarioC.removeComponentById "P" 0 "T1" 0).1

/-- `scenarioC` with a second `"T1"` component attached to entity 0:
store `[c0, c1]` (instance ids 0 and 1), index set `{0, 1}`. -/
def scenarioC2 : Manager := (scenarioC.addComponentT "P" 0 "T1").1

/-- `scenarioC2` after `removeComponent<T1>(e, instanceId 0)`: store
`[null, c1]`, free queue `[0]`, index set `{1}`. -/
def scenarioHole : Manager := (scenarioC2.removeComponentById "P" 0 "T1" 0).1

/-- `scenarioHole` after `removeComponent<T1>(e, instanceId 1)`: the
search loop's running index skips the null slot, so index 0 — not 1 —
is enqueued and erased from the entity's index set. -/
def scenarioHole2 : Manager := (scenarioHole.removeComponentById "P" 0 "T1" 1).1

/-- One entity created in the DEFAULT pool of the just-initialized manager. -/
def scenarioDefaultE : Manager := (Manager.init.createEntity "DEFAULT").1

/-- Just-initialized manager with the error callback installed and the
pool `"P"` (capacity 2) filled with two entities. -/
def scenarioFullCb : Manager :=
  ((((Manager.init.installCallback).createEntityPool "P" 2).1.createEntity "P").1.createEntity
    "P").1

set_option maxRecDepth 100000

/-- C1: the signature/index-set invariant does NOT survive every listed
operation: in the reachable state `scenarioC` the entity owns one `"T1"`
component (unique id 0), and after `kill` the signature bit 0 is still
set while the index set for unique id 0 is empty — `kill` clears
`componentIndicies` but never touches `signature`. -/
theorem C1_kill_breaks_signature_invariant :
    0 ∈ (scenarioK.entityAt "P" 0).signature ∧
    (scenarioK.entityAt "P" 0).indicesOf 0 = [] ∧
    0 ∈ (scenarioC.entityAt "P" 0).signature ∧
    (scenarioC.entityAt "P" 0).indicesOf 0 = [0] := by
  decide

/-- C2: `kill` does set `alive = false`, `id = INVALID`, and push the
slot index onto the front of the pool's free queue, but it neither
clears the signature nor frees the component store slot: after killing
the owner of one `"T1"` component the store still holds the component
(count 1) and the signature still has bit 0 set. -/
theorem C2_kill_leaves_signature_and_store :
    (scenarioK.entityAt "P" 0).alive = false ∧
    (scenarioK.entityAt "P" 0).id = INVALID_E_ID ∧
    ((alFind "P" scenarioK.entityPools).getD default).nextIndicies = [0, 1] ∧
    (scenarioK.entityAt "P" 0).signature = [0] ∧
    ((scenarioK.components.getD 0 default).pool.filterMap id).length = 1 := by
  decide

/-- C4: `getComponents` does not restrict the result to the queried
entity: in `scenarioTwo` each of the two entities owns exactly one
`"T1"` component, yet `getComponents` for entity 0 returns both
components, including the one owned by entity 1. -/
theorem C4_getComponents_returns_other_owners :
    (scenarioTwo.entityAt "P" 0).id = 0 ∧
    (scenarioTwo.entityAt "P" 1).id = 1 ∧
    (scenarioTwo.entityAt "P" 0).indicesOf 0 = [0] ∧
    (scenarioTwo.entityAt "P" 1).indicesOf 0 = [1] ∧
    (scenarioTwo.getComponents "P" 0 "T1").map (fun c => c.ownerId) = [0, 1] := by
  decide

/-- C8: `createEntityPool` does NOT reject size 0: the `Pool`
constructor rounds 0 to 0 (`pow(2, ceil(log 0 / log 2)) = 0`) and the
call returns a (non-null) pool of capacity 0 with no error, while the
repository's own test asserts `createEntityPool("TEST2", 0)` fails.
Positive sizes are rounded up to the next power of two as claimed. -/
theorem C8_size_zero_pool_is_created :
    ((Manager.init.createEntityPool "TEST2" 0).2.1.map (fun pl => pl.poolSize)) = some 0 ∧
    (Manager.init.createEntityPool "TEST2" 0).2.2 = none ∧
    ((Manager.init.createEntityPool "ROUND" 6).2.1.map (fun pl => pl.poolSize)) = some 8 ∧
    ((Manager.init.createEntityPool "LARGE" 4096).2.1.map (fun pl => pl.poolSize)) = some 4096 := by
  constructor
  · rfl
  · constructor
    · rfl
    · constructor <;> rfl

/-- C5 counterexample: after freeing store slot 0 of type `"T1"`
(`removeComponentById` enqueues index 0 on the free queue), the next
`addComponent<T1>` does NOT pop the freed index: it appends a new slot,
the component lands at store index 1 and the free queue still holds
`[0]`; `removeComponents` nulls the slot WITHOUT enqueuing it (the free
queue stays empty); and with a freed slot preceding the match
(`scenarioHole`, store `[null, c1]`), `removeComponent` by instance id
nulls slot 1 but enqueues 0 — not the freed slot's index 1 — because
its running index is not incremented past null slots, and it erases
that same wrong index from the entity's index set, leaving the
signature bit set. -/
theorem C5_counterexample_no_slot_reuse :
    (scenarioC.removeComponentById "P" 0 "T1" 0).2 = true ∧
    (scenarioR.components.getD 0 default).nextIndicies = [0] ∧
    (scenarioR.components.getD 0 default).pool = [none] ∧
    (scenarioR.addComponentT "P" 0 "T1").2 = true ∧
    ((scenarioR.addComponentT "P" 0 "T1").1.entityAt "P" 0).indicesOf 0 = [1] ∧
    ((scenarioR.addComponentT "P" 0 "T1").1.components.getD 0 default).pool.length = 2 ∧
    ((scenarioR.addComponentT "P" 0 "T1").1.components.getD 0 default).nextIndicies = [0] ∧
    (scenarioC.removeComponents "P" 0 "T1").2 = true ∧
    ((scenarioC.removeComponents "P" 0 "T1").1.components.getD 0 default).nextIndicies = [] ∧
    (scenarioHole.components.getD 0 default).pool = [none, some ⟨1, 1, 0, 0⟩] ∧
    (scenarioHole.components.getD 0 default).nextIndicies = [0] ∧
    (scenarioHole.entityAt "P" 0).indicesOf 0 = [1] ∧
    (scenarioHole.removeComponentById "P" 0 "T1" 1).2 = true ∧
    (scenarioHole2.components.getD 0 default).pool = [none, none] ∧
    (scenarioHole2.components.getD 0 default).nextIndicies = [0, 0] ∧
    (scenarioHole2.entityAt "P" 0).indicesOf 0 = [1] ∧
    0 ∈ (scenarioHole2.entityAt "P" 0).signature := by
  decide

/-- `setEntity` at a valid locator rewrites exactly that entity. -/
theorem entityAt_setEntity (m : Manager) (p : String) (i : Nat) (f : Entity → Entity)
    (pl : EntityPool) (hp : alFind p m.entityPools = some pl) (hi : i < pl.pool.length) :
    (m.setEntity p i f).entityAt p i = f (m.entityAt p i) := by
  simp [Manager.setEntity, Manager.entityAt, alFind_alUpdate_self, hp, List.getD,
    listModify_getElem?_self, List.getElem?_eq_getElem hi]

/-- State characterization of a successful `addComponent`: the component
is appended at the back of its type's store, the per-type counter is
bumped with wrap, and the entity gains the store index and the
signature bit. -/
theorem addComponent_state (m : Manager) (p : String) (i : Nat) (c : Component)
    (h0 : c.uniqueId ≠ INVALID_C_UNIQUE_ID)
    (h1 : ∀ oc ∈ (m.components[c.uniqueId]?.getD default).pool, ∀ comp, oc = some comp →
      comp.id ≠ c.id) :
    m.addComponent p i (some c) =
      (({ m with
          components := (listModify c.uniqueId (fun q =>
            { q with pool := q.pool ++
              [some { c with id := m.componentIdCounter.getD c.uniqueId 0,
                             index := (m.components.getD c.uniqueId default).pool.length,
                             ownerId := (m.entityAt p i).id }] }) m.components),
          componentIdCounter := (m.componentIdCounter.set c.uniqueId
            (wrapComponentIdCounter (m.componentIdCounter.getD c.uniqueId 0 + 1)))
        }.setEntity p i (fun e =>
          { e with
            componentIndicies := (ciInsert c.uniqueId
              ((m.components.getD c.uniqueId default).pool.length) e.componentIndicies),
            signature := sinsert c.uniqueId e.signature })), true) := by
  simp [Manager.addComponent, h0]
  intro x hx
  cases x with
  | none => simp
  | some comp => simp [h1 (some comp) hx comp rfl]

/-- State characterization of a successful `removeComponents`: every
slot listed in the entity's index set is nulled (the free queue is not
touched), the signature bit is cleared and the map key erased. -/
theorem removeComponents_state (m : Manager) (p : String) (i : Nat) (t : String)
    (hA : m.getComponentUniqueId t ≠ INVALID_C_UNIQUE_ID)
    (hB : (m.getComponentUniqueId t) ∈ (m.entityAt p i).signature)
    (hC : (m.entityAt p i).indicesOf (m.getComponentUniqueId t) ≠ []) :
    m.removeComponents p i t =
      (({ m with
          components := (listModify (m.getComponentUniqueId t) (fun q =>
            { q with pool := (((m.entityAt p i).indicesOf (m.getComponentUniqueId t)).foldl
                (fun pool idx => pool.set idx none) q.pool) }) m.components)
        }.setEntity p i (fun en =>
          { en with
            signature := serase (m.getComponentUniqueId t) en.signature,
            componentIndicies := (alEraseKey (m.getComponentUniqueId t)
              en.componentIndicies) })), true) := by
  simp [Manager.removeComponents, hA, hB, hC]

/-- `setEntity` rewrites only the located pool, whose slot vector is
modified in place. -/
theorem setEntity_find (m : Manager) (p : String) (i : Nat) (f : Entity → Entity)
    (pl : EntityPool) (hp : alFind p m.entityPools = some pl) :
    alFind p (m.setEntity p i f).entityPools =
      some { pl with pool := (listModify i f pl.pool) } := by
  simp [Manager.setEntity, alFind_alUpdate_self, hp]

/-- Observable postcondition of a successful `addComponent`: true is
returned, the type registry is untouched, the locator stays valid, the
signature gains the component's bit and the index set gains the store
index at the back of the pool. -/
theorem addComponent_post (m : Manager) (p : String) (i : Nat) (c : Component)
    (pl : EntityPool) (hp : alFind p m.entityPools = some pl) (hi : i < pl.pool.length)
    (h0 : c.uniqueId ≠ INVALID_C_UNIQUE_ID)
    (h1 : ∀ oc ∈ (m.components[c.uniqueId]?.getD default).pool, ∀ comp, oc = some comp →
      comp.id ≠ c.id) :
    (m.addComponent p i (some c)).2 = true ∧
    (m.addComponent p i (some c)).1.typeIdMap = m.typeIdMap ∧
    (∃ pl1, alFind p (m.addComponent p i (some c)).1.entityPools = some pl1 ∧
      i < pl1.pool.length) ∧
    ((m.addComponent p i (some c)).1.entityAt p i).signature =
      sinsert c.uniqueId (m.entityAt p i).signature ∧
    ((m.addComponent p i (some c)).1.entityAt p i).indicesOf c.uniqueId =
      sinsert ((m.components.getD c.uniqueId default).pool.length)
        ((m.entityAt p i).indicesOf c.uniqueId) := by
  rw [addComponent_state m p i c h0 h1]
  dsimp only
  refine ⟨rfl, rfl, ⟨_, setEntity_find _ p i _ pl hp, ?_⟩, ?_, ?_⟩
  · simpa [listModify_length] using hi
  · simp [Manager.setEntity, Manager.entityAt, alFind_alUpdate_self, hp, List.getD,
      listModify_getElem?_self, List.getElem?_eq_getElem hi]
  · simp [Manager.setEntity, Manager.entityAt, alFind_alUpdate_self, hp, List.getD,
      listModify_getElem?_self, List.getElem?_eq_getElem hi, Entity.indicesOf,
      alFind_ciInsert_self]

/-- Observable postcondition of a successful `removeComponents`: true is
returned, the type registry is untouched and the signature loses the
type's bit. -/
theorem removeComponents_post (m : Manager) (p : String) (i : Nat) (t : String)
    (pl : EntityPool) (hp : alFind p m.entityPools = some pl) (hi : i < pl.pool.length)
    (hA : m.getComponentUniqueId t ≠ INVALID_C_UNIQUE_ID)
    (hB : m.getComponentUniqueId t ∈ (m.entityAt p i).signature)
    (hC : (m.entityAt p i).indicesOf (m.getComponentUniqueId t) ≠ []) :
    (m.removeComponents p i t).2 = true ∧
    (m.removeComponents p i t).1.typeIdMap = m.typeIdMap ∧
    ((m.removeComponents p i t).1.entityAt p i).signature =
      serase (m.getComponentUniqueId t) ((m.entityAt p i).signature) := by
  rw [removeComponents_state m p i t hA hB hC]
  dsimp only
  refine ⟨rfl, rfl, ?_⟩
  simp [Manager.setEntity, Manager.entityAt, alFind_alUpdate_self, hp, List.getD,
    listModify_getElem?_self, List.getElem?_eq_getElem hi]

/-- `removeComponents` fails when the signature bit for the type is
clear (or the type is unknown). -/
theorem removeComponents_not_mem (m : Manager) (p : String) (i : Nat) (t : String)
    (h : m.getComponentUniqueId t ∉ (m.entityAt p i).signature) :
    (m.removeComponents p i t).2 = false := by
  by_cases hA : m.getComponentUniqueId t = INVALID_C_UNIQUE_ID
  · simp [Manager.removeComponents, hA]
  · simp [Manager.removeComponents, hA, h]

/-- Round trip of attach/detach once the component type resolves to the
registered unique id `u`: attaching a fresh component succeeds,
`removeComponents` then succeeds and clears the signature bit, and a
second `removeComponents` fails. -/
theorem roundTrip_aux (M : Manager) (p : String) (i : Nat) (t : String) (u : Nat)
    (pl : EntityPool)
    (hpM : alFind p M.entityPools = some pl) (hiM : i < pl.pool.length)
    (huid : M.getComponentUniqueId t = u)
    (hu_ne : u ≠ INVALID_C_UNIQUE_ID)
    (hids : ∀ oc ∈ (M.components[u]?.getD default).pool, ∀ comp, oc = some comp →
      comp.id ≠ INVALID_C_ID) :
    (M.addComponent p i (some { Component.init with uniqueId := u })).2 = true ∧
    ((M.addComponent p i (some { Component.init with uniqueId := u })).1.removeComponents
      p i t).2 = true ∧
    (M.addComponent p i (some { Component.init with uniqueId := u })).1.getComponentUniqueId
      t ∉
      (((M.addComponent p i (some { Component.init with uniqueId := u })).1.removeComponents
        p i t).1.entityAt p i).signature ∧
    (((M.addComponent p i (some { Component.init with uniqueId := u })).1.removeComponents
      p i t).1.removeComponents p i t).2 = false := by
  obtain ⟨h1t, hTyp1, ⟨pl1, hfind1, hi1⟩, hsig1, hind1⟩ :=
    addComponent_post M p i { Component.init with uniqueId := u } pl hpM hiM hu_ne hids
  have hsig1u : ((M.addComponent p i
      (some { Component.init with uniqueId := u })).1.entityAt p i).signature =
      sinsert u ((M.entityAt p i).signature) := hsig1
  have hind1u : ((M.addComponent p i
      (some { Component.init with uniqueId := u })).1.entityAt p i).indicesOf u =
      sinsert ((M.components.getD u default).pool.length)
        ((M.entityAt p i).indicesOf u) := hind1
  have hM1uid : (M.addComponent p i
      (some { Component.init with uniqueId := u })).1.getComponentUniqueId t = u := by
    show (alFind t (M.addComponent p i
      (some { Component.init with uniqueId := u })).1.typeIdMap).getD
        INVALID_C_UNIQUE_ID = u
    rw [hTyp1]
    exact huid
  have hB1 : (M.addComponent p i
      (some { Component.init with uniqueId := u })).1.getComponentUniqueId t ∈
      ((M.addComponent p i
        (some { Component.init with uniqueId := u })).1.entityAt p i).signature := by
    rw [hM1uid, hsig1u]
    exact mem_sinsert_self u _
  have hC1 : ((M.addComponent p i
      (some { Component.init with uniqueId := u })).1.entityAt p i).indicesOf
      ((M.addComponent p i
        (some { Component.init with uniqueId := u })).1.getComponentUniqueId t) ≠ [] := by
    rw [hM1uid, hind1u]
    exact sinsert_ne_nil _ _
  obtain ⟨h2t, hTyp2, hsig2⟩ :=
    removeComponents_post (M.addComponent p i
      (some { Component.init with uniqueId := u })).1 p i t pl1 hfind1 hi1
      (by rw [hM1uid]; exact hu_ne) hB1 hC1
  have hM2uid : ((M.addComponent p i
      (some { Component.init with uniqueId := u })).1.removeComponents
      p i t).1.getComponentUniqueId t = u := by
    show (alFind t ((M.addComponent p i
      (some { Component.init with uniqueId := u })).1.removeComponents
        p i t).1.typeIdMap).getD INVALID_C_UNIQUE_ID = u
    rw [hTyp2, hTyp1]
    exact huid
  have hnot2 : u ∉ (((M.addComponent p i
      (some { Component.init with uniqueId := u })).1.removeComponents
      p i t).1.entityAt p i).signature := by
    rw [hsig2, hM1uid, hsig1u]
    exact not_mem_serase_self u _
  refine ⟨h1t, h2t, ?_, ?_⟩
  · rw [hM1uid]
    exact hnot2
  · exact removeComponents_not_mem _ p i t (by rw [hM2uid]; exact hnot2)

/-- C7: for an alive entity with no components of type `t` attached,
`addComponent<T>` returns true, a following `removeComponents<T>`
returns true and leaves the entity's signature bit for `t` clear, and a
second `removeComponents<T>` returns false.  The well-formedness
hypotheses mirror reachable manager states: the unique-id counter is
below the sentinel and equals the number of stores, registered ids
index the store list, and stored components carry real instance ids. -/
theorem C7_add_removeComponents_round_trip (m : Manager) (p : String) (i : Nat)
    (t : String) (pl : EntityPool)
    (hp : alFind p m.entityPools = some pl)
    (hi : i < pl.pool.length)
    (halive : (pl.pool.getD i default).alive = true)
    (hcnt : m.uniqueIdCounter < INVALID_C_UNIQUE_ID)
    (hlen : m.uniqueIdCounter = m.components.length)
    (hmapT : ∀ u, alFind t m.typeIdMap = some u → u < m.components.length)
    (hidsT : ∀ u, alFind t m.typeIdMap = some u →
      ∀ oc ∈ (m.components[u]?.getD default).pool, ∀ comp, oc = some comp →
        comp.id ≠ INVALID_C_ID)
    (hnoT : ∀ u, alFind t m.typeIdMap = some u →
      u ∉ (pl.pool.getD i default).signature) :
    (m.addComponentT p i t).2 = true ∧
    ((m.addComponentT p i t).1.removeComponents p i t).2 = true ∧
    (m.addComponentT p i t).1.getComponentUniqueId t ∉
      (((m.addComponentT p i t).1.removeComponents p i t).1.entityAt p i).signature ∧
    (((m.addComponentT p i t).1.removeComponents p i t).1.removeComponents p i t).2 =
      false := by
  cases hT : alFind t m.typeIdMap with
  | some u =>
    have huid : m.getComponentUniqueId t = u := by
      simp [Manager.getComponentUniqueId, hT]
    have hu_lt : u < m.components.length := hmapT u hT
    have hu_ne : u ≠ INVALID_C_UNIQUE_ID := by
      rw [← hlen] at hu_lt
      exact Nat.ne_of_lt (Nat.lt_trans hu_lt hcnt)
    have hAT : m.addComponentT p i t =
        m.addComponent p i (some { Component.init with uniqueId := u }) := by
      simp [Manager.addComponentT, Manager.createComponent, Manager.registerComponent,
        huid, hu_ne]
    rw [hAT]
    exact roundTrip_aux m p i t u pl hp hi huid hu_ne (hidsT u hT)
  | none =>
    have h0 : m.getComponentUniqueId t = INVALID_C_UNIQUE_ID := by
      simp [Manager.getComponentUniqueId, hT]
    have hu_ne : m.uniqueIdCounter ≠ INVALID_C_UNIQUE_ID := Nat.ne_of_lt hcnt
    have hreg : m.registerComponent t =
        ({ m with
           uniqueIdCounter := m.uniqueIdCounter + 1,
           typeIdMap := m.typeIdMap ++ [(t, m.uniqueIdCounter)],
           components := m.components ++ [⟨[], []⟩],
           componentIdCounter := m.componentIdCounter ++ [0] }, m.uniqueIdCounter) := by
      simp [Manager.registerComponent, h0, hu_ne]
    have hR2ne : (m.registerComponent t).2 ≠ INVALID_C_UNIQUE_ID := by
      rw [hreg]
      exact hu_ne
    have hAT : m.addComponentT p i t =
        (m.registerComponent t).1.addComponent p i
          (some { Component.init with uniqueId := (m.registerComponent t).2 }) := by
      simp [Manager.addComponentT, Manager.createComponent, hR2ne]
    have hpR : alFind p (m.registerComponent t).1.entityPools = some pl := by
      rw [hreg]
      exact hp
    have huidR : (m.registerComponent t).1.getComponentUniqueId t =
        (m.registerComponent t).2 := by
      rw [hreg]
      simp [Manager.getComponentUniqueId, alFind_append_of_none hT, alFind]
    have hidsR : ∀ oc ∈ ((m.registerComponent t).1.components[(m.registerComponent
        t).2]?.getD default).pool, ∀ comp, oc = some comp → comp.id ≠ INVALID_C_ID := by
      rw [hreg]
      simp only [hlen, List.getElem?_concat_length, Option.getD_some]
      intro oc hoc
      simp at hoc
    rw [hAT]
    exact roundTrip_aux (m.registerComponent t).1 p i t (m.registerComponent t).2 pl
      hpR hi huidR hR2ne hidsR

/-- C7 witness: in `scenarioE` (one alive entity in pool `"P"`, no
component types ever registered), adding then twice removing `"T1"`
behaves exactly as the round trip states. -/
theorem C7_witness :
    (scenarioE.addComponentT "P" 0 "T1").2 = true ∧
    ((scenarioE.addComponentT "P" 0 "T1").1.removeComponents "P" 0 "T1").2 = true ∧
    (scenarioE.addComponentT "P" 0 "T1").1.getComponentUniqueId "T1" ∉
      (((scenarioE.addComponentT "P" 0 "T1").1.removeComponents "P" 0
        "T1").1.entityAt "P" 0).signature ∧
    (((scenarioE.addComponentT "P" 0 "T1").1.removeComponents "P" 0
      "T1").1.removeComponents "P" 0 "T1").2 = false := by
  have h := C7_add_removeComponents_round_trip scenarioE "P" 0 "T1" _
    rfl (by decide) (by decide) (by decide) (by decide)
    (by intro u hu; cases hu) (by intro u hu; cases hu) (by intro u hu; cases hu)
  exact h

/-- The fully assigned component record that `addComponent` stores: the
next per-type instance id, the store index at the back of the pool, and
the owner's current entity id. -/
def assignedComponent (m : Manager) (p : String) (i : Nat) (c : Component) : Component :=
  { c with id := m.componentIdCounter.getD c.uniqueId 0,
           index := (m.components.getD c.uniqueId default).pool.length,
           ownerId := (m.entityAt p i).id }

/-- C5 (amended): `removeComponent` nulls the freed slot and appends its
index to the back of the type's free queue; `removeComponents` nulls
the slots without enqueuing anything (every free queue is unchanged);
and `addComponent` never consumes the free queue — it always appends
the component in a new slot at the end of the store. -/
theorem C5_store_alloc_spec (m : Manager) (p : String) (i : Nat) (t : String)
    (cNew c : Component) (pl : EntityPool) (cid : Nat) (comp : Component) (j k : Nat)
    (huN : cNew.uniqueId < m.components.length)
    (h0 : cNew.uniqueId ≠ INVALID_C_UNIQUE_ID)
    (h1 : ∀ oc ∈ (m.components.getD cNew.uniqueId default).pool, ∀ comp, oc = some comp →
      comp.id ≠ cNew.id)
    (huC : c.uniqueId < m.components.length)
    (h2 : c.id ≠ INVALID_C_ID) (h3 : c.index ≠ INVALID_C_INDEX)
    (h4 : c.uniqueId = m.getComponentUniqueId t)
    (h5 : c.ownerId = (m.entityAt p i).id)
    (h6 : (m.entityAt p i).signature.contains c.uniqueId = true)
    (h7 : (m.components.getD c.uniqueId default).pool.getD c.index none ≠ none)
    (hp : alFind p m.entityPools = some pl) (hi : i < pl.pool.length)
    (hT : m.getComponentUniqueId t ≠ INVALID_C_UNIQUE_ID)
    (hcid : cid ≠ INVALID_C_ID)
    (hfid : findByCId cid (m.components.getD (m.getComponentUniqueId t) default).pool 0 0 =
      some (comp, j, k))
    (hocmp : comp.ownerId = (m.entityAt p i).id) :
    ((m.addComponent p i (some cNew)).2 = true ∧
     ((m.addComponent p i (some cNew)).1.components.getD cNew.uniqueId default).nextIndicies =
       (m.components.getD cNew.uniqueId default).nextIndicies ∧
     ((m.addComponent p i (some cNew)).1.components.getD cNew.uniqueId default).pool =
       (m.components.getD cNew.uniqueId default).pool ++ [some (assignedComponent m p i cNew)]) ∧
    ((m.removeComponentByPtr p i t c).2 = true ∧
     ((m.removeComponentByPtr p i t c).1.components.getD c.uniqueId default).nextIndicies =
       (m.components.getD c.uniqueId default).nextIndicies ++ [c.index] ∧
     ((m.removeComponentByPtr p i t c).1.components.getD c.uniqueId
       default).pool.getD c.index none = none) ∧
    (∀ u, ((m.removeComponents p i t).1.components.getD u default).nextIndicies =
      (m.components.getD u default).nextIndicies) ∧
    ((m.removeComponentById p i t cid).2 = true ∧
     ((m.removeComponentById p i t cid).1.components.getD (m.getComponentUniqueId t)
       default).nextIndicies =
       (m.components.getD (m.getComponentUniqueId t) default).nextIndicies ++ [k] ∧
     ((m.removeComponentById p i t cid).1.components.getD (m.getComponentUniqueId t)
       default).pool.getD j none = none ∧
     ((m.removeComponentById p i t cid).1.entityAt p i).indicesOf
       (m.getComponentUniqueId t) =
       serase k ((m.entityAt p i).indicesOf (m.getComponentUniqueId t)) ∧
     k = ((m.components.getD (m.getComponentUniqueId t) default).pool.take j).countP
       (fun s => s.isSome) ∧
     ((∀ oc ∈ (m.components.getD (m.getComponentUniqueId t) default).pool.take j,
       oc.isSome = true) → k = j)) := by
  refine ⟨?_, ?_, ?_, ?_⟩
  · have h1g : ∀ oc ∈ (m.components[cNew.uniqueId]?.getD default).pool,
        ∀ comp, oc = some comp → comp.id ≠ cNew.id := by
      simpa [List.getD] using h1
    have hstate : m.addComponent p i (some cNew) =
        (({ m with
            components := (listModify cNew.uniqueId (fun q =>
              { q with pool := q.pool ++ [some (assignedComponent m p i cNew)] })
              m.components),
            componentIdCounter := (m.componentIdCounter.set cNew.uniqueId
              (wrapComponentIdCounter (m.componentIdCounter.getD cNew.uniqueId 0 + 1)))
          }.setEntity p i (fun e =>
            { e with
              componentIndicies := (ciInsert cNew.uniqueId
                ((m.components.getD cNew.uniqueId default).pool.length) e.componentIndicies),
              signature := sinsert cNew.uniqueId e.signature })), true) := by
      simp [Manager.addComponent, h0, assignedComponent]
      intro x hx
      cases x with
      | none => simp
      | some comp => simp [h1g (some comp) hx comp rfl]
    rw [hstate]
    simp only [Manager.setEntity]
    rw [listModify_getD_self _ _ huN]
    simp
  · have hslot : ∃ cc, (m.components.getD c.uniqueId default).pool.getD c.index none =
        some cc := by
      cases hx : (m.components.getD c.uniqueId default).pool.getD c.index none with
      | none => exact absurd hx h7
      | some cc => exact ⟨cc, rfl⟩
    obtain ⟨cc, hcc⟩ := hslot
    have h6g : m.getComponentUniqueId t ∈ (m.entityAt p i).signature := by
      rw [← h4]
      simpa using h6
    have hccg : (m.components[m.getComponentUniqueId t]?.getD default).pool[c.index]?.getD
        none = some cc := by
      rw [← h4]
      simpa [List.getD] using hcc
    have hstate : m.removeComponentByPtr p i t c =
        (({ m with
            components := (listModify c.uniqueId (fun q =>
              { q with pool := q.pool.set c.index none,
                       nextIndicies := q.nextIndicies ++ [c.index] }) m.components)
          }.setEntity p i (fun e =>
            { e with componentIndicies := (ciEraseVal c.uniqueId c.index e.componentIndicies),
                     signature := (if (alFind c.uniqueId
                         (ciEraseVal c.uniqueId c.index e.componentIndicies)).getD [] = []
                       then serase c.uniqueId e.signature else e.signature) })), true) := by
      simp [Manager.removeComponentByPtr, h2, h3, h4, h5, h6g, hccg]
    rw [hstate]
    simp only [Manager.setEntity]
    rw [listModify_getD_self _ _ huC]
    have hileng : c.index <
        (m.components[m.getComponentUniqueId t]?.getD default).pool.length := by
      by_contra hge
      rw [List.getElem?_eq_none (Nat.le_of_not_lt hge)] at hccg
      simp at hccg
    simp [List.getD, h4, List.getElem?_set_eq_of_lt _ hileng]
  · intro u
    by_cases hA : m.getComponentUniqueId t = INVALID_C_UNIQUE_ID
    · simp [Manager.removeComponents, hA]
    · by_cases hB : (m.getComponentUniqueId t) ∈ (m.entityAt p i).signature
      · by_cases hC : (m.entityAt p i).indicesOf (m.getComponentUniqueId t) = []
        · simp [Manager.removeComponents, hA, hB, hC]
        · have hstate : (m.removeComponents p i t).1.components =
              listModify (m.getComponentUniqueId t) (fun q =>
                { q with pool := (((m.entityAt p i).indicesOf
                    (m.getComponentUniqueId t)).foldl
                    (fun pool idx => pool.set idx none) q.pool) }) m.components := by
            simp [Manager.removeComponents, hA, hB, hC, Manager.setEntity]
          rw [hstate]
          rcases Nat.lt_or_ge (m.getComponentUniqueId t) m.components.length with hlt | hge
          · by_cases hu2 : u = m.getComponentUniqueId t
            · subst hu2
              rw [listModify_getD_self _ _ hlt]
            · rw [listModify_getD_ne _ _ _ hu2]
          · rw [listModify_oob _ hge]
      · simp [Manager.removeComponents, hA, hB]
  · have huid_lt : m.getComponentUniqueId t < m.components.length := by
      rw [← h4]
      exact huC
    have hfidg : findByCId cid (m.components[m.getComponentUniqueId t]?.getD
        default).pool 0 0 = some (comp, j, k) := by
      simpa [List.getD] using hfid
    have hsp := findByCId_spec cid _ 0 0 comp j k hfid
    have hjlt : j < (m.components.getD (m.getComponentUniqueId t) default).pool.length := by
      simpa using hsp.2.1
    have hkcnt : k = ((m.components.getD (m.getComponentUniqueId t) default).pool.take
        j).countP (fun s => s.isSome) := by
      simpa using hsp.2.2.2
    have hstate : m.removeComponentById p i t cid =
        (({ m with
            components := (listModify (m.getComponentUniqueId t) (fun q =>
              { q with pool := q.pool.set j none,
                       nextIndicies := q.nextIndicies ++ [k] }) m.components)
          }.setEntity p i (fun e =>
            { e with
              componentIndicies := (ciEraseVal (m.getComponentUniqueId t) k
                e.componentIndicies),
              signature := (if (alFind (m.getComponentUniqueId t)
                  (ciEraseVal (m.getComponentUniqueId t) k e.componentIndicies)).getD [] = []
                then serase (m.getComponentUniqueId t) e.signature else e.signature) })),
          true) := by
      simp [Manager.removeComponentById, hcid, hT, hfidg, hocmp]
    refine ⟨by rw [hstate], ?_, ?_, ?_, hkcnt, ?_⟩
    · rw [hstate]
      simp only [Manager.setEntity]
      rw [listModify_getD_self _ _ huid_lt]
    · rw [hstate]
      simp only [Manager.setEntity]
      rw [listModify_getD_self _ _ huid_lt]
      have hjltg : j < (m.components[m.getComponentUniqueId t]?.getD
          default).pool.length := by
        simpa [List.getD] using hjlt
      simp [List.getD, List.getElem?_set_eq_of_lt _ hjltg]
    · rw [hstate]
      simp [Manager.setEntity, Manager.entityAt, alFind_alUpdate_self, hp, List.getD,
        listModify_getElem?_self, List.getElem?_eq_getElem hi, Entity.indicesOf,
        getD_ciEraseVal]
    · intro hall
      rw [hkcnt, List.countP_eq_length.mpr hall, List.length_take]
      omega

/-- C5 witness: in `scenarioC` (one `"T1"` component at store slot 0
owned by entity 0), adding a fresh component appends it at slot 1 with
instance id 1, removing the stored component by pointer enqueues index
0, `removeComponents` leaves the free queue untouched, and removing by
instance id 0 succeeds enqueuing the loop's running index 0. -/
theorem C5_witness :
    (scenarioC.addComponent "P" 0 (some ⟨INVALID_C_ID, INVALID_C_INDEX, 0, INVALID_E_ID⟩)).2 =
      true ∧
    ((scenarioC.addComponent "P" 0
      (some ⟨INVALID_C_ID, INVALID_C_INDEX, 0, INVALID_E_ID⟩)).1.components.getD 0
        default).pool =
      (scenarioC.components.getD 0 default).pool ++
        [some (assignedComponent scenarioC "P" 0 ⟨INVALID_C_ID, INVALID_C_INDEX, 0,
          INVALID_E_ID⟩)] ∧
    ((scenarioC.removeComponentByPtr "P" 0 "T1" ⟨0, 0, 0, 0⟩).1.components.getD 0
      default).nextIndicies = (scenarioC.components.getD 0 default).nextIndicies ++ [0] ∧
    (∀ u, ((scenarioC.removeComponents "P" 0 "T1").1.components.getD u default).nextIndicies =
      (scenarioC.components.getD u default).nextIndicies) ∧
    (scenarioC.removeComponentById "P" 0 "T1" 0).2 = true ∧
    ((scenarioC.removeComponentById "P" 0 "T1" 0).1.components.getD 0 default).nextIndicies =
      (scenarioC.components.getD 0 default).nextIndicies ++ [0] ∧
    ((scenarioC.removeComponentById "P" 0 "T1" 0).1.entityAt "P" 0).indicesOf 0 =
      serase 0 ((scenarioC.entityAt "P" 0).indicesOf 0) := by
  have h := C5_store_alloc_spec scenarioC "P" 0 "T1"
    ⟨INVALID_C_ID, INVALID_C_INDEX, 0, INVALID_E_ID⟩ ⟨0, 0, 0, 0⟩ _ 0 ⟨0, 0, 0, 0⟩ 0 0
    (by decide) (by decide) (by decide) (by decide) (by decide) (by decide)
    (by decide) (by decide) (by decide) (by decide) rfl (by decide) (by decide)
    (by decide) (by decide) (by decide)
  exact ⟨h.1.1, h.1.2.2, h.2.1.2.1, h.2.2.1, h.2.2.2.1, h.2.2.2.2.1, h.2.2.2.2.2.2.1⟩

/-- Counting alive slots through any per-slot rewrite that preserves the
`alive` flag leaves the count unchanged. -/
theorem countAlive_enumFrom_map (f : Nat × Entity → Entity)
    (hf : ∀ pr, (f pr).alive = pr.2.alive) :
    ∀ (n : Nat) (l : List Entity),
      (((List.enumFrom n l).map f).filter (fun e => e.alive)).length =
        (l.filter (fun e => e.alive)).length := by
  intro n l
  induction l generalizing n with
  | nil => simp
  | cons hd tl ih =>
    rw [List.enumFrom_cons, List.map_cons, List.filter_cons, List.filter_cons, hf]
    cases hal : hd.alive <;> simp [hal, ih]

/-- C6 (amended): `clear` leaves only the DEFAULT pool, resets every
slot's id, index map, signature and fixed index, reseeds the free queue
with every slot index in order, drops all component state and resets
both counters — but it does NOT reset the `alive` flags, so the alive
count of the DEFAULT pool survives `clear` unchanged. -/
theorem C6_clear_spec (m : Manager) (pl : EntityPool)
    (hp : alFind DEFAULT_ENTITY_POOL_NAME m.entityPools = some pl) :
    m.clear.typeIdMap = [] ∧
    m.clear.components = [] ∧
    m.clear.componentIdCounter = [] ∧
    m.clear.uniqueIdCounter = 0 ∧
    m.clear.entityIdCounter = 0 ∧
    (∀ q, q ≠ DEFAULT_ENTITY_POOL_NAME → alFind q m.clear.entityPools = none) ∧
    (∃ cl, alFind DEFAULT_ENTITY_POOL_NAME m.clear.entityPools = some cl ∧
      cl.nextIndicies = List.range pl.pool.length ∧
      cl.pool.length = pl.pool.length ∧
      (∀ i, i < pl.pool.length →
        (cl.pool.getD i default).id = INVALID_E_ID ∧
        (cl.pool.getD i default).signature = [] ∧
        (cl.pool.getD i default).componentIndicies = [] ∧
        (cl.pool.getD i default).index = i ∧
        (cl.pool.getD i default).alive = (pl.pool.getD i default).alive) ∧
      cl.countAliveEntity = pl.countAliveEntity) := by
  refine ⟨rfl, rfl, rfl, rfl, rfl, ?_, ?_⟩
  · intro q hq
    have hq2 : ¬ DEFAULT_ENTITY_POOL_NAME = q := fun h => hq h.symm
    simp [Manager.clear, alFind, hq2]
  · have hcl : alFind DEFAULT_ENTITY_POOL_NAME m.clear.entityPools =
        some { pl with
               nextIndicies := List.range pl.pool.length,
               pool := (pl.pool.enum.map (fun pr =>
                 { pr.2 with id := INVALID_E_ID, componentIndicies := [],
                             signature := [], index := pr.1 })) } := by
      simp [Manager.clear, alFind, hp]
    refine ⟨_, hcl, rfl, by simp, ?_, ?_⟩
    · intro i hi
      have hi2 : i < (pl.pool.enum.map (fun pr =>
          { pr.2 with id := INVALID_E_ID, componentIndicies := [],
                      signature := [], index := pr.1 })).length := by
        simpa using hi
      rw [List.getD_eq_getElem _ _ hi2, List.getElem_map, List.getElem_enum]
      exact ⟨rfl, rfl, rfl, rfl, by rw [List.getD_eq_getElem _ _ hi]⟩
    · unfold EntityPool.countAliveEntity
      exact countAlive_enumFrom_map (fun pr =>
        { pr.2 with id := INVALID_E_ID, componentIndicies := [],
                    signature := [], index := pr.1 }) (fun pr => rfl) 0 pl.pool

/-- C6 witness: a hand-built manager whose DEFAULT pool has two slots
satisfies the hypotheses; `clear` resets its registries and counters. -/
def miniDefault : Manager :=
  { entityPools := [(DEFAULT_ENTITY_POOL_NAME,
      EntityPool.create DEFAULT_ENTITY_POOL_NAME 2)],
    typeIdMap := [("T1", 0)], components := [⟨[], []⟩], componentIdCounter := [0],
    uniqueIdCounter := 1, entityIdCounter := 3, hasErrorCallback := false }

/-- C6 witness proper: the amended clear postcondition holds for
`miniDefault`. -/
theorem C6_witness :
    miniDefault.clear.typeIdMap = [] ∧
    miniDefault.clear.uniqueIdCounter = 0 ∧
    miniDefault.clear.entityIdCounter = 0 ∧
    (∃ cl, alFind DEFAULT_ENTITY_POOL_NAME miniDefault.clear.entityPools = some cl ∧
      cl.countAliveEntity =
        (EntityPool.create DEFAULT_ENTITY_POOL_NAME 2).countAliveEntity) := by
  have h := C6_clear_spec miniDefault (EntityPool.create DEFAULT_ENTITY_POOL_NAME 2) rfl
  obtain ⟨cl, hcl1, _, _, _, hcl5⟩ := h.2.2.2.2.2.2
  exact ⟨h.1, h.2.2.2.1, h.2.2.2.2.1, cl, hcl1, hcl5⟩

/-- C6 counterexample: `clear` does not reset the `alive` flag, so after
creating one entity in the DEFAULT pool and calling `clear`, the DEFAULT
pool still counts 1 alive entity instead of the claimed 0 (even though
the slot's id is back to INVALID and the free queue is reseeded). -/
theorem C6_counterexample_alive_after_clear :
    ((alFind "DEFAULT" scenarioDefaultE.clear.entityPools).getD default).countAliveEntity = 1 ∧
    (scenarioDefaultE.clear.entityAt "DEFAULT" 0).id = INVALID_E_ID := by
  constructor
  · rfl
  · rfl

/-- C9 (amended): every fallible Manager API signals failure by its
return value, and the error callback, when installed, is invoked
exactly for the three pool-name error kinds — `PoolFull`,
`InvalidEntityId` and `EntityNotFound` fall into `sendError`'s
`default: return` branch and produce no invocation.  `createEntity` and
`createEntityPool` pass an error kind to `sendError` exactly when they
return the null handle. -/
theorem C9_error_callback_policy :
    (∀ (cb : Bool) (code : ERROR_CODE), (Manager.sendError cb code).isSome = true ↔
      (cb = true ∧ (code = ERROR_CODE.ECS_INVALID_POOL_NAME ∨
        code = ERROR_CODE.ECS_DUPLICATED_POOL_NAME ∨
        code = ERROR_CODE.ECS_POOL_NOT_FOUND))) ∧
    (∀ (m : Manager) (p : String),
      ((m.createEntity p).2.1 = none ↔ (m.createEntity p).2.2.isSome = true)) ∧
    (∀ (m : Manager) (name : String) (size : Nat),
      ((m.createEntityPool name size).2.1 = none ↔
        (m.createEntityPool name size).2.2.isSome = true)) := by
  refine ⟨?_, ?_, ?_⟩
  · intro cb code
    cases cb <;> cases code <;> simp [Manager.sendError]
  · intro m p
    by_cases hp : p = ""
    · simp [Manager.createEntity, hp]
    · cases hf : alFind p m.entityPools with
      | none => simp [Manager.createEntity, hp, hf]
      | some pl =>
        cases hq : pl.nextIndicies with
        | nil => simp [Manager.createEntity, hp, hf, hq]
        | cons a b => simp [Manager.createEntity, hp, hf, hq]
  · intro m name size
    by_cases h1 : name = "" ∨ name = DEFAULT_ENTITY_POOL_NAME
    · simp [Manager.createEntityPool, h1]
    · by_cases h2 : m.hasPoolName name = true <;>
        simp [Manager.createEntityPool, h1, h2]

/-- C9 counterexample: with the error callback installed,
`createEntity` on the full pool `"P"` fails with the `PoolFull` error
kind, but `sendError` falls into its `default: return` branch for that
kind and never invokes the callback. -/
theorem C9_counterexample_poolfull_no_callback :
    scenarioFullCb.hasErrorCallback = true ∧
    (scenarioFullCb.createEntity "P").2.1 = none ∧
    (scenarioFullCb.createEntity "P").2.2 = some ERROR_CODE.ECS_POOL_IS_FULL ∧
    Manager.sendError scenarioFullCb.hasErrorCallback ERROR_CODE.ECS_POOL_IS_FULL = none := by
  refine ⟨rfl, rfl, rfl, rfl⟩

/-- C10: queries and removals never register a component type.  For a
type `t` that was never passed through `createComponent`/`addComponent`
(its unique-id lookup yields the invalid sentinel), `hasComponent`,
`getComponent`, `getComponents`, `removeComponent` (both overloads,
for any component record that carries a real unique id) and
`removeComponents` return false/none/empty and hand back the manager
state — including the type registry, the store list and every counter —
completely unchanged. -/
theorem C10_queries_never_register (m : Manager) (p : String) (i : Nat) (t : String)
    (cid : Nat) (c : Component)
    (hT : m.getComponentUniqueId t = INVALID_C_UNIQUE_ID)
    (hc : c.uniqueId ≠ INVALID_C_UNIQUE_ID) :
    m.hasComponentType p i t = false ∧
    m.hasComponentPtr p i t c = false ∧
    m.getComponent p i t = none ∧
    m.getComponents p i t = [] ∧
    m.removeComponentById p i t cid = (m, false) ∧
    m.removeComponentByPtr p i t c = (m, false) ∧
    m.removeComponents p i t = (m, false) := by
  have hcc : c.uniqueId ≠ m.getComponentUniqueId t := by rw [hT]; exact hc
  refine ⟨?_, ?_, ?_, ?_, ?_, ?_, ?_⟩
  · simp [Manager.hasComponentType, hT]
  · simp only [Manager.hasComponentPtr]
    split_ifs <;> simp_all [Manager.hasComponentType, hT]
  · simp [Manager.getComponent, hT]
  · simp [Manager.getComponents, hT]
  · simp only [Manager.removeComponentById]
    split_ifs <;> simp_all [hT]
  · simp only [Manager.removeComponentByPtr]
    split_ifs <;> simp_all
  · simp [Manager.removeComponents, hT]

/-- Success postcondition of `Manager.createEntity`: the head of the
free queue is popped and that slot is revived with a fresh id. -/
theorem createEntity_success (m : Manager) (p : String) (pl : EntityPool)
    (idx : Nat) (rest : List Nat) (hp : p ≠ "")
    (hf : alFind p m.entityPools = some pl) (hq : pl.nextIndicies = idx :: rest)
    (hidx : idx < pl.pool.length) :
    (m.createEntity p).2.1 = some idx ∧
    ((m.createEntity p).1.entityAt p idx).alive = true ∧
    ((m.createEntity p).1.entityAt p idx).id = m.entityIdCounter ∧
    (m.createEntity p).1.entityIdCounter = wrapEntityIdCounter (m.entityIdCounter + 1) ∧
    (alFind p (m.createEntity p).1.entityPools).map EntityPool.nextIndicies = some rest := by
  have hce : m.createEntity p = ({ m with
      entityPools := (alUpdate p (fun q =>
        { q with nextIndicies := rest,
                 pool := (listModify idx (fun e => e.reviveWith m.entityIdCounter) q.pool) })
        m.entityPools),
      entityIdCounter := wrapEntityIdCounter (m.entityIdCounter + 1) }, some idx, none) := by
    simp [Manager.createEntity, hp, hf, hq]
  have hfind : alFind p (m.createEntity p).1.entityPools =
      some { pl with
             nextIndicies := rest,
             pool := (listModify idx (fun e => e.reviveWith m.entityIdCounter) pl.pool) } := by
    rw [hce]
    simp [alFind_alUpdate_self, hf]
  refine ⟨by rw [hce], ?_, ?_, by rw [hce], by rw [hfind]; rfl⟩
  · simp [Manager.entityAt, hfind, listModify_getElem?_self,
      List.getElem?_eq_getElem hidx, Entity.reviveWith]
  · simp [Manager.entityAt, hfind, listModify_getElem?_self,
      List.getElem?_eq_getElem hidx, Entity.reviveWith]

/-- C3: `createEntity` returns the null handle exactly when the pool
name is empty, the pool is unknown, or the pool's free queue is empty;
otherwise it pops the head of the free queue and revives that slot
(alive, id freshly drawn from the entity counter, counter bumped with
wrap at the maximum); and after a `kill` the next `createEntity` in the
same pool reuses the killed slot index with an id drawn fresh from the
counter. -/
theorem C3_createEntity_spec (m : Manager) (p : String) :
    ((m.createEntity p).2.1 = none ↔
      (p = "" ∨ alFind p m.entityPools = none ∨
        ∃ pl, alFind p m.entityPools = some pl ∧ pl.nextIndicies = [])) ∧
    (∀ pl idx rest, p ≠ "" → alFind p m.entityPools = some pl →
      pl.nextIndicies = idx :: rest → idx < pl.pool.length →
      (m.createEntity p).2.1 = some idx ∧
      ((m.createEntity p).1.entityAt p idx).alive = true ∧
      ((m.createEntity p).1.entityAt p idx).id = m.entityIdCounter ∧
      (m.createEntity p).1.entityIdCounter = wrapEntityIdCounter (m.entityIdCounter + 1) ∧
      (alFind p (m.createEntity p).1.entityPools).map EntityPool.nextIndicies = some rest) ∧
    (∀ pl idx, p ≠ "" → alFind p m.entityPools = some pl → idx < pl.pool.length →
      (pl.pool.getD idx default).entityPoolName = p →
      (pl.pool.getD idx default).index = idx →
      ((m.kill p idx).createEntity p).2.1 = some idx ∧
      (((m.kill p idx).createEntity p).1.entityAt p idx).alive = true ∧
      (((m.kill p idx).createEntity p).1.entityAt p idx).id = m.entityIdCounter ∧
      (m.kill p idx).entityIdCounter = m.entityIdCounter) := by
  refine ⟨?_, ?_, ?_⟩
  · by_cases hp : p = ""
    · simp [Manager.createEntity, hp]
    · cases hf : alFind p m.entityPools with
      | none => simp [Manager.createEntity, hp, hf]
      | some pl =>
        cases hq : pl.nextIndicies with
        | nil => simp [Manager.createEntity, hp, hf, hq]
        | cons a b => simp [Manager.createEntity, hp, hf, hq]
  · intro pl idx rest hp hf hq hidx
    exact createEntity_success m p pl idx rest hp hf hq hidx
  · intro pl idx hp hf hidx hname hindex
    have hname2 : (pl.pool[idx]?.getD default).entityPoolName = p := by
      simpa [List.getD] using hname
    have hindex2 : (pl.pool[idx]?.getD default).index = idx := by
      simpa [List.getD] using hindex
    have hk1 : alFind p (m.kill p idx).entityPools =
        some { pl with
               nextIndicies := idx :: pl.nextIndicies,
               pool := (listModify idx Entity.wipe pl.pool) } := by
      simp [Manager.kill, Manager.setEntity, Manager.entityAt, hf, hname2, hindex2,
        alFind_alUpdate_self]
    have hkc : (m.kill p idx).entityIdCounter = m.entityIdCounter := by
      simp [Manager.kill, Manager.setEntity, Manager.entityAt, hf, hname2]
    have hlen : idx < (listModify idx Entity.wipe pl.pool).length := by
      rw [listModify_length]
      exact hidx
    obtain ⟨h1, h2, h3, h4, h5⟩ :=
      createEntity_success (m.kill p idx) p _ idx pl.nextIndicies hp hk1 rfl hlen
    exact ⟨h1, h2, h3.trans hkc, hkc⟩

/-- C3 witness: in `scenarioBase` the pool `"P"` has free queue `[0, 1]`,
so `createEntity` succeeds on slot 0 with the counter's id; and killing
the entity of `scenarioE` makes the next `createEntity` reuse slot 0. -/
theorem C3_witness :
    (scenarioBase.createEntity "P").2.1 = some 0 ∧
    ((scenarioBase.createEntity "P").1.entityAt "P" 0).id = scenarioBase.entityIdCounter ∧
    ((scenarioE.kill "P" 0).createEntity "P").2.1 = some 0 ∧
    (((scenarioE.kill "P" 0).createEntity "P").1.entityAt "P" 0).alive = true :=
  ⟨((C3_createEntity_spec scenarioBase "P").2.1 (EntityPool.create "P" 2) 0 [1]
      (by decide) (by decide) (by decide) (by decide)).1,
   ((C3_createEntity_spec scenarioBase "P").2.1 (EntityPool.create "P" 2) 0 [1]
      (by decide) (by decide) (by decide) (by decide)).2.2.1,
   ((C3_createEntity_spec scenarioE "P").2.2 _ 0
      (by decide) rfl (by decide) (by decide) (by decide)).1,
   ((C3_createEntity_spec scenarioE "P").2.2 _ 0
      (by decide) rfl (by decide) (by decide) (by decide)).2.1⟩

/-- C10 witness: in `scenarioC` only `"T1"` is registered, so the type
`"T2"` is unknown and every query about it is a fully inert no-op. -/
theorem C10_witness :
    scenarioC.hasComponentType "P" 0 "T2" = false ∧
    scenarioC.hasComponentPtr "P" 0 "T2" ⟨0, 0, 0, 0⟩ = false ∧
    scenarioC.getComponent "P" 0 "T2" = none ∧
    scenarioC.getComponents "P" 0 "T2" = [] ∧
    scenarioC.removeComponentById "P" 0 "T2" 5 = (scenarioC, false) ∧
    scenarioC.removeComponentByPtr "P" 0 "T2" ⟨0, 0, 0, 0⟩ = (scenarioC, false) ∧
    scenarioC.removeComponents "P" 0 "T2" = (scenarioC, false) :=
  C10_queries_never_register scenarioC "P" 0 "T2" 5 ⟨0, 0, 0, 0⟩ (by decide) (by decide)

end ECS
